import Mathlib

/-!
# Shallow embedding of the sy-release-dashboard serverless handlers

The repository consists of two Vercel serverless functions:

* `/api/releases` (src/unnamed/part_000) — fetches all projects of a
  workspace, filters to non-archived "release" projects by keyword match
  on the lower-cased name, sorts ascending by due date (undated last) and
  responds with a JSON envelope.
* `/api/tasks` (src/api/tasks.js) — fetches all projects, filters to
  release projects by keyword match, fetches each release project's tasks
  in batches of 5 with a 100 ms pause between batches, keeps incomplete
  tasks due within the next 30 days, annotates them with their project,
  sorts ascending by due date and responds with a JSON envelope.

The embedding below models dates by calendar-day index: the JS expression
`new Date("YYYY-MM-DD")` denotes midnight UTC of that calendar day, i.e.
`d * msPerDay` milliseconds since the epoch for day index `d`, while
`new Date()` (the request moment `today`) is an arbitrary millisecond
timestamp.  Fetch results are passed in as explicit oracles (`Except`
values), so a handler is a pure function of the request method, the
environment variables and the fetch outcomes.
-/

namespace ReleaseDashboard

/-- Milliseconds in one calendar day; `30 * msPerDay` is the JS window
`30 * 24 * 60 * 60 * 1000` used in src/api/tasks.js line 62. -/
def msPerDay : Nat := 24 * 60 * 60 * 1000

/-- A project record as returned by the upstream projects request.
`due_date` is the calendar-day index of the project's due date, `none`
when the project has no due date. -/
structure Project where
  gid : String
  name : String
  due_date : Option Nat
  archived : Bool
  owner : Option String
  notes : String
  created_at : String
deriving DecidableEq, Repr

/-- A task record as returned by the upstream per-project tasks request
(opt_fields name, due_on, assignee.name, completed, created_at, notes,
plus the always-present gid).  `due_on` is the calendar-day index of the
due date, `none` when the task has no due date. -/
structure Task where
  gid : String
  name : String
  due_on : Option Nat
  assignee : Option String
  completed : Bool
  created_at : String
  notes : String
deriving DecidableEq, Repr

/-- A task annotated with its owning project's name, gid and due date,
as produced by the spread `{ ...task, project_name, project_gid,
project_due_date }` in src/api/tasks.js lines 102-107. -/
structure AnnTask extends Task where
  project_name : String
  project_gid : String
  project_due_date : Option Nat
deriving DecidableEq, Repr

/-! ## Substring matching (JS `String.prototype.includes`) -/

/-- `startsWithB k s` — `k` is a prefix of `s` (character lists). -/
def startsWithB : List Char → List Char → Bool
  | [], _ => true
  | _ :: _, [] => false
  | a :: as, b :: bs => a == b && startsWithB as bs

/-- `containsB k s` mirrors the JS `s.includes(k)` contiguous-substring
test on character lists. -/
def containsB : List Char → List Char → Bool
  | k, [] => k.isEmpty
  | k, c :: rest => startsWithB k (c :: rest) || containsB k rest

/-- `k` occurs as a contiguous substring of `s`. -/
def SubstrOf (k s : List Char) : Prop := ∃ p q, s = p ++ k ++ q

theorem startsWithB_iff : ∀ k s : List Char, startsWithB k s = true ↔ ∃ q, s = k ++ q
  | [], s => by simp [startsWithB]
  | _ :: _, [] => by simp [startsWithB]
  | a :: as, b :: bs => by
    simp only [startsWithB, Bool.and_eq_true, beq_iff_eq, List.cons_append]
    rw [startsWithB_iff as bs]
    constructor
    · rintro ⟨rfl, q, rfl⟩
      exact ⟨q, rfl⟩
    · rintro ⟨q, hq⟩
      injection hq with h1 h2
      exact ⟨h1.symm, q, h2⟩

theorem containsB_iff : ∀ k s : List Char, containsB k s = true ↔ SubstrOf k s
  | k, [] => by
    simp only [containsB, List.isEmpty_iff, SubstrOf]
    constructor
    · rintro rfl
      exact ⟨[], [], rfl⟩
    · rintro ⟨p, q, hq⟩
      rcases List.append_eq_nil.mp (List.append_eq_nil.mp hq.symm).1 with ⟨_, h⟩
      exact h
  | k, c :: rest => by
    simp only [containsB, Bool.or_eq_true]
    rw [startsWithB_iff, containsB_iff k rest]
    constructor
    · rintro (⟨q, hq⟩ | ⟨p, q, hq⟩)
      · exact ⟨[], q, by simp [hq]⟩
      · exact ⟨c :: p, q, by simp [hq]⟩
    · rintro ⟨p, q, hq⟩
      cases p with
      | nil => exact Or.inl ⟨q, by simpa using hq⟩
      | cons x xs =>
        injection hq with _ h2
        exact Or.inr ⟨xs, q, h2⟩

theorem substrOf_trans {a b s : List Char} (h1 : SubstrOf a b) (h2 : SubstrOf b s) :
    SubstrOf a s := by
  obtain ⟨p, q, rfl⟩ := h1
  obtain ⟨u, v, rfl⟩ := h2
  exact ⟨u ++ p, q ++ v, by simp⟩

theorem containsB_trans {a b s : List Char} (h1 : containsB a b = true)
    (h2 : containsB b s = true) : containsB a s = true :=
  (containsB_iff a s).mpr (substrOf_trans ((containsB_iff a b).mp h1) ((containsB_iff b s).mp h2))

/-! ## Release classifiers -/

/-- Keyword list of the tasks handler, src/api/tasks.js lines 47-50. -/
def releaseKeywordsT : List String :=
  ["release", "ep", "single", "album", "[ep", "[single", "[album", "[release"]

/-- Keyword list of the releases handler, src/unnamed/part_000 lines 48-52. -/
def releaseKeywordsR : List String :=
  ["release", "ep", "single", "album", "[ep", "[single", "[album", "[release",
   "EP Release", "Single Release", "Album Release"]

/-- JS `String.prototype.toLowerCase` restricted to the character lists
we model (ASCII case mapping), as a list of characters. -/
def jsLower (s : String) : List Char := s.data.map Char.toLower

/-- Keyword membership test on an already lower-cased name, mirroring
`releaseKeywords.some(keyword => name.includes(keyword.toLowerCase()))`. -/
def matchLC (kws : List String) (s : List Char) : Bool :=
  kws.any fun k => containsB (jsLower k) s

/-- The tasks handler's release-project filter predicate,
src/api/tasks.js lines 52-55.  Note: it does not look at `archived`. -/
def isReleaseProjectT (p : Project) : Bool :=
  matchLC releaseKeywordsT (jsLower p.name)

/-- The releases handler's release-project filter predicate,
src/unnamed/part_000 lines 54-60: archived projects are skipped, then the
keyword test is applied to the lower-cased name. -/
def isReleaseProjectR (p : Project) : Bool :=
  !p.archived && matchLC releaseKeywordsR (jsLower p.name)

/-! ## Due-soon task filter -/

/-- The upcoming-task filter of src/api/tasks.js lines 89-99: completed
tasks and tasks without a due date are dropped; otherwise the parsed due
date (midnight UTC, `d * msPerDay`) must satisfy
`dueDate >= today && dueDate <= today + 30 days` as millisecond
timestamps, where `today` is the request moment. -/
def isUpcoming (today : Nat) (t : Task) : Bool :=
  if t.completed then false
  else
    match t.due_on with
    | none => false
    | some d => decide (today ≤ d * msPerDay) && decide (d * msPerDay ≤ today + 30 * msPerDay)

/-- Task annotation, src/api/tasks.js lines 102-107: spread the task and
add the owning project's name, gid and due date. -/
def annotate (p : Project) (t : Task) : AnnTask :=
  { toTask := t, project_name := p.name, project_gid := p.gid, project_due_date := p.due_date }

/-! ## Sorting

The JS sources call `Array.prototype.sort` with a comparator.  For both
comparators below the induced relation `cmp a b ≤ 0` is a total preorder,
and JS engines implement a stable sort, so the observable result is the
stable sort by that relation; we model it with `List.insertionSort`,
which is stable. -/

/-- Comparator of the releases handler, src/unnamed/part_000 lines 63-68:
two undated projects compare equal, an undated project compares after any
dated one, two dated projects compare by date subtraction (in ms). -/
def releaseCmp (a b : Project) : Int :=
  match a.due_date, b.due_date with
  | none, none => 0
  | none, some _ => 1
  | some _, none => -1
  | some x, some y => ((x * msPerDay : Nat) : Int) - ((y * msPerDay : Nat) : Int)

/-- `a` sorts no later than `b` under the releases comparator. -/
def releaseLe (a b : Project) : Prop := releaseCmp a b ≤ 0

instance : DecidableRel releaseLe := fun a b => inferInstanceAs (Decidable (_ ≤ _))

instance : IsTotal Project releaseLe := by
  constructor
  intro a b
  unfold releaseLe releaseCmp
  rcases a.due_date with _ | x <;> rcases b.due_date with _ | y <;> simp <;> omega

instance : IsTrans Project releaseLe := by
  constructor
  intro a b c
  unfold releaseLe releaseCmp
  rcases a.due_date with _ | x <;> rcases b.due_date with _ | y <;>
    rcases c.due_date with _ | z <;> simp <;> omega

/-- The sort applied by the releases handler. -/
def sortReleases (l : List Project) : List Project := List.insertionSort releaseLe l

/-- Comparator of the tasks handler, src/api/tasks.js line 125:
`new Date(a.due_on) - new Date(b.due_on)`.  Every task reaching this sort
has a non-`none` due_on (see the C6 theorem), so on the reachable inputs
the parsed value is `d * msPerDay`; `getD 0` is only a formal total
completion of the partial JS parse. -/
def taskCmp (a b : AnnTask) : Int :=
  ((a.due_on.getD 0 * msPerDay : Nat) : Int) - ((b.due_on.getD 0 * msPerDay : Nat) : Int)

/-- `a` sorts no later than `b` under the tasks comparator. -/
def taskLe (a b : AnnTask) : Prop := taskCmp a b ≤ 0

instance : DecidableRel taskLe := fun a b => inferInstanceAs (Decidable (_ ≤ _))

instance : IsTotal AnnTask taskLe := by
  constructor
  intro a b
  unfold taskLe taskCmp
  omega

instance : IsTrans AnnTask taskLe := by
  constructor
  intro a b c
  unfold taskLe taskCmp
  omega

/-- The sort applied by the tasks handler. -/
def sortTasks (l : List AnnTask) : List AnnTask := List.insertionSort taskLe l

/-! ## Fetch oracles and handler results -/

/-- An upstream HTTP response: `ok` is the fetch `response.ok` flag,
`status`/`statusText` the HTTP status, `data` the parsed JSON `data`
array. -/
structure Resp (α : Type) where
  ok : Bool
  status : Nat
  statusText : String
  data : α
deriving Repr

/-- Outcome of a JS `fetch`: the promise either rejects with an error
message (network failure / thrown error) or resolves to a response. -/
abbrev Fetch (α : Type) := Except String (Resp α)

/-- JS truthiness of an optional environment variable string:
`undefined` and the empty string are falsy, everything else truthy. -/
def truthy : Option String → Bool
  | none => false
  | some s => !(s == "")

/-- Observable outcome of the releases handler.  `preflight` is the
`res.status(200).end()` answer to OPTIONS (no body), `methodNotAllowed`
the 405 answer, `ok ps` the 200 envelope
`{ success:true, projects:ps, count:ps.length, timestamp }`, and
`err msg` the 500 envelope `{ success:false, error:msg, timestamp }`. -/
inductive ReleasesResult where
  | preflight
  | methodNotAllowed
  | ok (projects : List Project)
  | err (msg : String)
deriving DecidableEq, Repr

/-- Observable outcome of the tasks handler.  `ok ts n` is the 200
envelope `{ success:true, tasks:ts, count:ts.length,
projects_processed:n, timestamp }`, `err msg` the 500 envelope
`{ success:false, error:msg, timestamp }`. -/
inductive TasksResult where
  | preflight
  | methodNotAllowed
  | ok (tasks : List AnnTask) (projects_processed : Nat)
  | err (msg : String)
deriving DecidableEq, Repr

/-- The releases handler, src/unnamed/part_000: CORS preflight, method
check, environment check (a missing variable throws, and the catch block
turns the message into a 500), primary projects fetch (rejection or
non-ok status becomes a 500), then filter and sort. -/
def releasesHandler (method : String) (token workspace : Option String)
    (projectsFetch : Fetch (List Project)) : ReleasesResult :=
  if method == "OPTIONS" then .preflight
  else if method != "GET" then .methodNotAllowed
  else if !truthy token || !truthy workspace then .err "Missing environment variables"
  else
    match projectsFetch with
    | .error e => .err e
    | .ok r =>
      if !r.ok then .err ("Asana API error: " ++ toString r.status ++ " " ++ r.statusText)
      else .ok (sortReleases (r.data.filter isReleaseProjectR))

/-- Structural worker for `batches`: `fuel` bounds the number of loop
iterations (each iteration consumes at least one element, so
`l.length` iterations always suffice). -/
def batchesAux {α : Type} : Nat → List α → List (List α × Bool)
  | _, [] => []
  | 0, _ :: _ => []
  | fuel + 1, a :: rest =>
    ((a :: rest).take 5, decide (5 < (a :: rest).length)) :: batchesAux fuel ((a :: rest).drop 5)

/-- The batch loop structure of src/api/tasks.js lines 65-122: the
release-project list is consumed five at a time
(`releaseProjects.slice(i, i + 5)`); the boolean records whether the
100 ms pause runs after the chunk (`i + batchSize <
releaseProjects.length`). -/
def batches {α : Type} (l : List α) : List (List α × Bool) := batchesAux l.length l

theorem batchesAux_nil {α : Type} (fuel : Nat) : batchesAux fuel ([] : List α) = [] := by
  cases fuel <;> rfl

theorem batchesAux_congr {α : Type} :
    ∀ (f1 f2 : Nat) (l : List α), l.length ≤ f1 → l.length ≤ f2 →
      batchesAux f1 l = batchesAux f2 l
  | f1, f2, [], _, _ => by rw [batchesAux_nil, batchesAux_nil]
  | 0, _, a :: rest, h1, _ => by simp at h1
  | _ + 1, 0, a :: rest, _, h2 => by simp at h2
  | f1 + 1, f2 + 1, a :: rest, h1, h2 => by
    simp only [batchesAux, List.cons.injEq, true_and]
    exact batchesAux_congr f1 f2 ((a :: rest).drop 5)
      (by simp at h1 ⊢; omega) (by simp at h2 ⊢; omega)

/-- The loop equation of `batches` on a non-empty list. -/
theorem batches_cons {α : Type} (a : α) (rest : List α) :
    batches (a :: rest) =
      ((a :: rest).take 5, decide (5 < (a :: rest).length)) :: batches ((a :: rest).drop 5) := by
  show batchesAux (rest.length + 1) (a :: rest) = _
  simp only [batchesAux, List.cons.injEq, true_and]
  exact batchesAux_congr rest.length ((a :: rest).drop 5).length ((a :: rest).drop 5)
    (by simp only [List.length_drop, List.length_cons]; omega) le_rfl

theorem batches_eq_nil_iff {α : Type} : ∀ l : List α, batches l = [] ↔ l = []
  | [] => by simp [batches, batchesAux]
  | a :: rest => by rw [batches_cons]; simp

/-- The chunks, concatenated in order, restore the project list. -/
theorem batches_join {α : Type} : ∀ l : List α, ((batches l).map Prod.fst).flatten = l
  | [] => rfl
  | a :: rest => by
    rw [batches_cons]
    simp only [List.map_cons, List.flatten_cons]
    rw [batches_join ((a :: rest).drop 5)]
    exact List.take_append_drop 5 (a :: rest)
termination_by l => l.length
decreasing_by simp only [List.length_drop, List.length_cons]; omega

/-- Every chunk has between 1 and 5 elements. -/
theorem batches_size : ∀ {α : Type} (l : List α), ∀ b ∈ batches l, b.1.length ≤ 5 ∧ b.1 ≠ []
  | _, [], b, hb => by simp [batches, batchesAux] at hb
  | _, a :: rest, b, hb => by
    rw [batches_cons] at hb
    rcases List.mem_cons.mp hb with rfl | hb'
    · refine ⟨by simp [List.length_take], by simp⟩
    · exact batches_size ((a :: rest).drop 5) b hb'
termination_by _ l => l.length
decreasing_by simp only [List.length_drop, List.length_cons]; omega

/-- The pause flag of chunk `i` is set exactly when chunk `i` is not the
last chunk (`i + batchSize < releaseProjects.length` holds iff some
project remains after the chunk). -/
theorem batches_snd : ∀ {α : Type} (l : List α) (i : Nat), i < (batches l).length →
    ((batches l).getD i ([], false)).2 = decide (i + 1 < (batches l).length)
  | _, [], i, h => by simp [batches, batchesAux] at h
  | _, a :: rest, 0, h => by
    rw [batches_cons]
    simp only [List.getD_cons_zero, List.length_cons]
    rw [decide_eq_decide]
    have hlen : (a :: rest).length ≤ 5 ↔ (batches ((a :: rest).drop 5)).length = 0 := by
      rw [List.length_eq_zero]
      exact ((batches_eq_nil_iff _).trans List.drop_eq_nil_iff).symm
    simp only [List.length_cons] at hlen ⊢
    omega
  | _, a :: rest, i + 1, h => by
    rw [batches_cons] at h ⊢
    simp only [List.getD_cons_succ, List.length_cons] at h ⊢
    rw [batches_snd ((a :: rest).drop 5) i (by omega)]
    rw [decide_eq_decide]
    omega
termination_by _ l => l.length
decreasing_by all_goals simp only [List.length_drop, List.length_cons]; omega

/-- Every chunk except the last has exactly 5 elements. -/
theorem batches_full : ∀ {α : Type} (l : List α) (i : Nat) (h : i < (batches l).length),
    i + 1 < (batches l).length → ((batches l).getD i ([], false)).1.length = 5
  | _, [], i, h, _ => by simp [batches, batchesAux] at h
  | _, a :: rest, 0, h, hlt => by
    rw [batches_cons] at hlt ⊢
    simp only [List.getD_cons_zero, List.length_cons] at hlt ⊢
    have hlen : (a :: rest).length ≤ 5 ↔ (batches ((a :: rest).drop 5)).length = 0 := by
      rw [List.length_eq_zero]
      exact ((batches_eq_nil_iff _).trans List.drop_eq_nil_iff).symm
    simp only [List.length_take, List.length_cons] at hlen ⊢
    omega
  | _, a :: rest, i + 1, h, hlt => by
    rw [batches_cons] at h hlt ⊢
    simp only [List.getD_cons_succ, List.length_cons] at h hlt ⊢
    exact batches_full ((a :: rest).drop 5) i (by omega) (by omega)
termination_by _ l => l.length
decreasing_by all_goals simp only [List.length_drop, List.length_cons]; omega

/-- Concatenating per-chunk concatenations equals concatenating over the
flattened chunk list. -/
theorem flatten_chunks {α β : Type} (f : α → List β) :
    ∀ cs : List (List α), (cs.map (fun c => (c.map f).flatten)).flatten = (cs.flatten.map f).flatten
  | [] => rfl
  | c :: cs => by
    simp only [List.map_cons, List.flatten_cons, List.map_append, List.flatten_append,
      flatten_chunks f cs]

/-- Batched fetching concatenates, in chunk order, exactly the
per-project results in list order. -/
theorem batches_concat {α β : Type} (f : α → List β) (l : List α) :
    ((batches l).map (fun b => (b.1.map f).flatten)).flatten = (l.map f).flatten := by
  have h1 : (batches l).map (fun b => (b.1.map f).flatten)
      = ((batches l).map Prod.fst).map (fun c => (c.map f).flatten) := by
    rw [List.map_map]
    rfl
  rw [h1, flatten_chunks, batches_join]

/-- Tasks contributed by one release project, src/api/tasks.js lines
69-113: a rejected fetch (caught) or a non-ok status yields the empty
list; otherwise the returned tasks are filtered by `isUpcoming` and
annotated with the project. -/
def projectTasks (today : Nat) (tasksFetch : String → Fetch (List Task)) (p : Project) :
    List AnnTask :=
  match tasksFetch p.gid with
  | .error _ => []
  | .ok r =>
    if !r.ok then []
    else (r.data.filter (isUpcoming today)).map (annotate p)

/-- The tasks handler, src/api/tasks.js: CORS preflight, method check,
environment check, primary projects fetch, release filter, batched
per-project task fetches concatenated in chunk order, final sort. -/
def tasksHandler (method : String) (token workspace : Option String)
    (projectsFetch : Fetch (List Project)) (tasksFetch : String → Fetch (List Task))
    (today : Nat) : TasksResult :=
  if method == "OPTIONS" then .preflight
  else if method != "GET" then .methodNotAllowed
  else if !truthy token || !truthy workspace then .err "Missing environment variables"
  else
    match projectsFetch with
    | .error e => .err e
    | .ok r =>
      if !r.ok then .err ("Asana API error: " ++ toString r.status)
      else
        let rel := r.data.filter isReleaseProjectT
        let allTasks :=
          ((batches rel).map (fun b => (b.1.map (projectTasks today tasksFetch)).flatten)).flatten
        .ok (sortTasks allTasks) rel.length

/-! ## Helper lemmas -/

/-- Characterization of the due-soon filter as timestamp comparisons. -/
theorem isUpcoming_iff (today : Nat) (t : Task) :
    isUpcoming today t = true ↔
      t.completed = false ∧ ∃ d, t.due_on = some d ∧
        today ≤ d * msPerDay ∧ d * msPerDay ≤ today + 30 * msPerDay := by
  unfold isUpcoming
  cases hc : t.completed <;> cases hd : t.due_on <;> simp [hc, hd]

/-- Every task a project contributes is an annotated task that passed the
due-soon filter. -/
theorem mem_projectTasks {today : Nat} {tf : String → Fetch (List Task)} {p : Project}
    {t : AnnTask} (h : t ∈ projectTasks today tf p) :
    ∃ t0 : Task, t = annotate p t0 ∧ isUpcoming today t0 = true := by
  unfold projectTasks at h
  rcases htf : tf p.gid with e | r
  · rw [htf] at h
    simp at h
  · rw [htf] at h
    rcases hok : r.ok with _ | _
    · simp [hok] at h
    · simp only [hok, Bool.not_true, Bool.false_eq_true, if_false, List.mem_map] at h
      obtain ⟨t0, ht0, rfl⟩ := h
      exact ⟨t0, rfl, (List.mem_filter.mp ht0).2⟩

/-- The tasks handler consumes the per-project fetch oracle only through
`projectTasks`. -/
theorem tasksHandler_congr {m : String} {tok ws : Option String} {pf : Fetch (List Project)}
    {tf tf' : String → Fetch (List Task)} {today : Nat}
    (h : ∀ p : Project, projectTasks today tf p = projectTasks today tf' p) :
    tasksHandler m tok ws pf tf today = tasksHandler m tok ws pf tf' today := by
  have hfun : projectTasks today tf = projectTasks today tf' := funext h
  unfold tasksHandler
  rw [hfun]

/-! ## Sample data for the concrete spec examples

Calendar-day indices: 19723 = 2024-01-01, 19724 = 2024-01-02,
19727 = 2024-01-05, 19783 = 2024-03-01. -/

/-- A release project without a due date. -/
def pAlbumNone : Project := ⟨"g1", "Album Release A", none, false, none, "", ""⟩

/-- A release project due 2024-03-01. -/
def pSingleMar : Project := ⟨"g2", "Single Release B", some 19783, false, none, "", ""⟩

/-- A release project due 2024-01-01. -/
def pEpJan : Project := ⟨"g3", "EP Release C", some 19723, false, none, "", ""⟩

/-- A filtered, annotated task due 2024-01-05. -/
def tJan05 : AnnTask := ⟨⟨"t5", "Master", some 19727, none, false, "", ""⟩, "EP Release C", "g3", some 19723⟩

/-- A filtered, annotated task due 2024-01-02. -/
def tJan02 : AnnTask := ⟨⟨"t2", "Mix", some 19724, none, false, "", ""⟩, "EP Release C", "g3", some 19723⟩

/-- Every task in the batched concatenation has a due date: it came
through the due-soon filter of some project. -/
theorem mem_allTasks_due_on {today : Nat} {tf : String → Fetch (List Task)} {l : List Project}
    {t : AnnTask}
    (h : t ∈ ((batches l).map (fun b => (b.1.map (projectTasks today tf)).flatten)).flatten) :
    t.due_on ≠ none := by
  rw [batches_concat] at h
  rw [List.mem_flatten] at h
  obtain ⟨c, hc, htc⟩ := h
  obtain ⟨p, hp, rfl⟩ := List.mem_map.mp hc
  obtain ⟨t0, rfl, hup⟩ := mem_projectTasks htc
  obtain ⟨-, d, hd, -, -⟩ := (isUpcoming_iff today t0).mp hup
  show t0.due_on ≠ none
  rw [hd]
  exact Option.some_ne_none d

/-! ## Claims -/

/-- C1, counterexample.  The claim implies that an incomplete task whose
due date is the current calendar day (`due_on = today / msPerDay`) passes
the due-soon filter.  It does not: at `today = 43200000` (noon UTC of
day 0) a task due on day 0 is rejected, because the code compares the
parsed due date (midnight UTC) against the full request timestamp with
`dueDate >= today`. -/
theorem c1_counterexample :
    ¬ (∀ (today : Nat) (t : Task),
        t.completed = false → t.due_on = some (today / msPerDay) →
        isUpcoming today t = true) := by
  intro h
  exact absurd (h 43200000 ⟨"t1", "Mix EP", some 0, none, false, "", ""⟩ rfl (by decide))
    (by decide)

/-- C1, amended.  The due-soon filter includes a task iff it is not
completed, has a due date, and the midnight-UTC timestamp of the due date
lies in the inclusive window `[today, today + 30 days]` of millisecond
timestamps, where `today` is the request moment (so a task due on the
current calendar day is included only when the request executes at
exactly midnight UTC). -/
theorem c1_upcoming_window (today : Nat) (t : Task) :
    isUpcoming today t = true ↔
      t.completed = false ∧ ∃ d, t.due_on = some d ∧
        today ≤ d * msPerDay ∧ d * msPerDay ≤ today + 30 * msPerDay :=
  isUpcoming_iff today t

/-- C1, amended, witness: at `today = 0` (midnight UTC of day 0) a task
due on day 0 is included, and at `today = 43200000` it is not. -/
theorem c1_upcoming_window_witness :
    isUpcoming 0 ⟨"t1", "Mix EP", some 0, none, false, "", ""⟩ = true ∧
    isUpcoming 43200000 ⟨"t1", "Mix EP", some 0, none, false, "", ""⟩ = false := by
  constructor
  · exact (c1_upcoming_window 0 ⟨"t1", "Mix EP", some 0, none, false, "", ""⟩).mpr
      ⟨rfl, 0, rfl, by decide, by decide⟩
  · by_contra hne
    have h := (c1_upcoming_window 43200000 ⟨"t1", "Mix EP", some 0, none, false, "", ""⟩).mp
      (by revert hne; cases isUpcoming 43200000 ⟨"t1", "Mix EP", some 0, none, false, "", ""⟩ <;> simp)
    obtain ⟨-, d, hd, h1, -⟩ := h
    cases hd
    exact absurd h1 (by decide)

/-- C2, counterexample.  The claim states that both handlers' release
classifiers exclude archived projects.  The tasks handler's classifier
(src/api/tasks.js lines 52-55) never tests `archived`: an archived
project named "EP Release" is classified as a release project by the
tasks handler, though the releases handler rejects it. -/
theorem c2_counterexample :
    isReleaseProjectT ⟨"1", "EP Release", none, true, none, "", ""⟩ = true ∧
    isReleaseProjectR ⟨"1", "EP Release", none, true, none, "", ""⟩ = false ∧
    Project.archived ⟨"1", "EP Release", none, true, none, "", ""⟩ = true :=
  ⟨by decide, by decide, rfl⟩

/-- C2, amended.  The releases handler's classifier accepts exactly the
non-archived projects whose lower-cased name contains some lower-cased
keyword of its list; the tasks handler's classifier accepts exactly the
projects whose lower-cased name contains some lower-cased keyword,
regardless of the archived flag (only the releases handler excludes
archived projects). -/
theorem c2_classifiers (p : Project) :
    (isReleaseProjectR p = true ↔
      p.archived = false ∧ ∃ k ∈ releaseKeywordsR, SubstrOf (jsLower k) (jsLower p.name)) ∧
    (isReleaseProjectT p = true ↔
      ∃ k ∈ releaseKeywordsT, SubstrOf (jsLower k) (jsLower p.name)) := by
  constructor
  · unfold isReleaseProjectR matchLC
    rw [Bool.and_eq_true]
    simp only [Bool.not_eq_true', List.any_eq_true, containsB_iff]
  · unfold isReleaseProjectT matchLC
    simp only [List.any_eq_true, containsB_iff]

/-- C7.  On a GET request with a missing (or empty, hence JS-falsy)
bearer token or workspace id, both handlers answer the 500 envelope with
`success:false` and the message "Missing environment variables".  The
fetch oracles are universally quantified, so the response is the same
whatever any network call would return: no upstream call influences the
outcome (in the source, the error is thrown before any `fetch`). -/
theorem c7_missing_env (token workspace : Option String)
    (pf pf2 : Fetch (List Project)) (tf : String → Fetch (List Task)) (today : Nat)
    (h : truthy token = false ∨ truthy workspace = false) :
    releasesHandler "GET" token workspace pf = .err "Missing environment variables" ∧
    tasksHandler "GET" token workspace pf2 tf today = .err "Missing environment variables" := by
  have hcond : (!truthy token || !truthy workspace) = true := by
    rcases h with h | h <;> simp [h]
  constructor
  · unfold releasesHandler
    rw [if_neg (by decide), if_neg (by decide), if_pos hcond]
  · unfold tasksHandler
    rw [if_neg (by decide), if_neg (by decide), if_pos hcond]

/-- C7, witness: absent token, concrete fetch oracles. -/
theorem c7_missing_env_witness :
    releasesHandler "GET" none (some "w") (Except.error "x") = .err "Missing environment variables" ∧
    tasksHandler "GET" none (some "w") (Except.error "x") (fun _ => Except.error "x") 0 =
      .err "Missing environment variables" :=
  c7_missing_env none (some "w") (Except.error "x") (Except.error "x") (fun _ => Except.error "x")
    0 (Or.inl rfl)

/-- C8.  Method dispatch precedes everything: an OPTIONS request gets the
bodyless 200 preflight answer from both handlers whatever the
environment and fetch oracles (no further processing), any method other
than GET and OPTIONS gets 405, and only GET reaches the environment
check and the fetch oracles. -/
theorem c8_method_dispatch (m : String) (token workspace : Option String)
    (pf pf2 : Fetch (List Project)) (tf : String → Fetch (List Task)) (today : Nat) :
    (releasesHandler "OPTIONS" token workspace pf = .preflight ∧
     tasksHandler "OPTIONS" token workspace pf2 tf today = .preflight) ∧
    (m ≠ "OPTIONS" → m ≠ "GET" →
      releasesHandler m token workspace pf = .methodNotAllowed ∧
      tasksHandler m token workspace pf2 tf today = .methodNotAllowed) := by
  refine ⟨⟨?_, ?_⟩, fun h1 h2 => ⟨?_, ?_⟩⟩
  · unfold releasesHandler
    rw [if_pos (by decide)]
  · unfold tasksHandler
    rw [if_pos (by decide)]
  · unfold releasesHandler
    rw [if_neg (by simp [h1]), if_pos (by simp [h2])]
  · unfold tasksHandler
    rw [if_neg (by simp [h1]), if_pos (by simp [h2])]

/-- C8, witness: a POST request is answered 405 by both handlers. -/
theorem c8_method_dispatch_witness :
    releasesHandler "POST" none none (Except.error "x") = .methodNotAllowed ∧
    tasksHandler "POST" none none (Except.error "x") (fun _ => Except.error "x") 0 =
      .methodNotAllowed :=
  (c8_method_dispatch "POST" none none (Except.error "x") (Except.error "x")
    (fun _ => Except.error "x") 0).2 (by decide) (by decide)

/-- C9.  The two textually different keyword lists define extensionally
equal membership predicates on lower-cased names: the three extra
keywords of the releases handler each contain "release" as a substring,
so any name they match is already matched by the shared "release"
keyword. -/
theorem c9_keyword_lists_equiv (s : List Char) :
    matchLC releaseKeywordsT s = true ↔ matchLC releaseKeywordsR s = true := by
  unfold matchLC releaseKeywordsT releaseKeywordsR
  simp only [List.any_cons, List.any_nil, Bool.or_eq_true, Bool.false_eq_true, or_false]
  constructor
  · intro h
    tauto
  · intro h
    have h9 : containsB (jsLower "EP Release") s = true →
        containsB (jsLower "release") s = true :=
      fun hh => containsB_trans (by decide) hh
    have h10 : containsB (jsLower "Single Release") s = true →
        containsB (jsLower "release") s = true :=
      fun hh => containsB_trans (by decide) hh
    have h11 : containsB (jsLower "Album Release") s = true →
        containsB (jsLower "release") s = true :=
      fun hh => containsB_trans (by decide) hh
    tauto

/-- C4.  The batch loop partitions the release-project list into
consecutive chunks of at most 5 (chunks before the last have exactly 5),
the chunks concatenated in order restore the list, the per-chunk results
concatenated in chunk order equal the per-project results concatenated in
list order, and the 100 ms pause flag is set after every chunk except the
last; for 12 projects the chunk sizes are [5,5,2] with pauses after the
first two chunks only.  (That the fetches inside one chunk are issued
concurrently and awaited together is a real-time scheduling fact outside
the embedding; the chunk contents, order and pauses are what is
verified.) -/
theorem c4_batching :
    (∀ l : List Project,
       ((batches l).map Prod.fst).flatten = l ∧
       (∀ b ∈ batches l, b.1.length ≤ 5) ∧
       (∀ i : Nat, i < (batches l).length →
         (((batches l).getD i ([], false)).2 = true ↔ i + 1 < (batches l).length) ∧
         (i + 1 < (batches l).length → ((batches l).getD i ([], false)).1.length = 5)) ∧
       (∀ (today : Nat) (tf : String → Fetch (List Task)),
         ((batches l).map (fun b => (b.1.map (projectTasks today tf)).flatten)).flatten
           = (l.map (projectTasks today tf)).flatten)) ∧
    (batches (List.range 12)).map (fun b => (b.1.length, b.2))
      = [(5, true), (5, true), (2, false)] := by
  constructor
  · intro l
    refine ⟨batches_join l, fun b hb => (batches_size l b hb).1,
      fun i hi => ⟨?_, batches_full l i hi⟩, fun today tf => batches_concat _ l⟩
    rw [batches_snd l i hi]
    simp
  · decide

/-- C4, witness: concrete instantiations of the quantified parts. -/
theorem c4_batching_witness :
    ((batches [pEpJan]).map Prod.fst).flatten = [pEpJan] ∧
    (((batches [pEpJan, pSingleMar, pAlbumNone, pEpJan, pSingleMar, pAlbumNone]).getD 0
        ([], false)).2 = true ↔
      0 + 1 < (batches [pEpJan, pSingleMar, pAlbumNone, pEpJan, pSingleMar, pAlbumNone]).length) :=
  ⟨(c4_batching.1 [pEpJan]).1,
   ((c4_batching.1 [pEpJan, pSingleMar, pAlbumNone, pEpJan, pSingleMar, pAlbumNone]).2.2.1 0
     (by decide)).1⟩

/-- C5.  The releases handler's sort returns a permutation of its input
that is sorted by the comparator order, and that order is exactly:
ascending by due date, any undated project after every dated one, two
undated projects tied; on due dates [none, 2024-03-01, 2024-01-01] the
output order is [2024-01-01, 2024-03-01, none]. -/
theorem c5_sort_releases :
    (∀ l : List Project,
       (sortReleases l).Perm l ∧
       List.Sorted releaseLe (sortReleases l) ∧
       (∀ a b : Project, releaseLe a b ↔
         (b.due_date = none ∨ ∃ x y, a.due_date = some x ∧ b.due_date = some y ∧ x ≤ y))) ∧
    sortReleases [pAlbumNone, pSingleMar, pEpJan] = [pEpJan, pSingleMar, pAlbumNone] := by
  constructor
  · intro l
    refine ⟨List.perm_insertionSort releaseLe l, List.sorted_insertionSort releaseLe l, ?_⟩
    intro a b
    unfold releaseLe releaseCmp msPerDay
    rcases ha : a.due_date with _ | x <;> rcases hb : b.due_date with _ | y <;>
      simp <;> omega
  · decide

/-- C6.  Whenever the tasks handler succeeds, every returned task has a
non-null due date (the due-soon filter already excluded undated tasks,
so the date-subtraction comparator never sees a null), and the returned
list is sorted ascending by due date; on filtered tasks with due dates
[2024-01-05, 2024-01-02] the sort returns [2024-01-02, 2024-01-05]. -/
theorem c6_tasks_sorted (token workspace : Option String) (pf : Fetch (List Project))
    (tf : String → Fetch (List Task)) (today : Nat) (ts : List AnnTask) (n : Nat)
    (h : tasksHandler "GET" token workspace pf tf today = .ok ts n) :
    (∀ t ∈ ts, t.due_on ≠ none) ∧ List.Sorted taskLe ts ∧
    sortTasks [tJan05, tJan02] = [tJan02, tJan05] := by
  unfold tasksHandler at h
  rw [if_neg (by decide), if_neg (by decide)] at h
  by_cases henv : (!truthy token || !truthy workspace) = true
  · rw [if_pos henv] at h
    simp at h
  · rw [if_neg henv] at h
    rcases hpf : pf with e | r
    · rw [hpf] at h
      simp at h
    · rw [hpf] at h
      rcases hok : r.ok with _ | _
      · simp [hok] at h
      · simp only [hok, Bool.not_true, Bool.false_eq_true, if_false, TasksResult.ok.injEq] at h
        obtain ⟨hts, -⟩ := h
        subst hts
        refine ⟨?_, List.sorted_insertionSort taskLe _, by decide⟩
        intro t ht
        unfold sortTasks at ht
        rw [List.mem_insertionSort] at ht
        exact mem_allTasks_due_on ht

/-- C6, witness: one release project with one incomplete task due the
next day; the handler succeeds and returns that task annotated. -/
theorem c6_tasks_sorted_witness :
    (∀ t ∈ [tJan02], t.due_on ≠ none) ∧ List.Sorted taskLe [tJan02] ∧
    sortTasks [tJan05, tJan02] = [tJan02, tJan05] :=
  c6_tasks_sorted (some "tok") (some "w") (Except.ok ⟨true, 200, "OK", [pEpJan]⟩)
    (fun _ => Except.ok ⟨true, 200, "OK", [⟨"t2", "Mix", some 19724, none, false, "", ""⟩]⟩)
    (19723 * msPerDay) [tJan02] 1 (by decide)

/-- The per-project task-fetch oracle used by the C3 witness: project g3
answers with one task, every other project's fetch rejects. -/
def tfBoom : String → Fetch (List Task) := fun gid =>
  if gid == "g3" then Except.ok ⟨true, 200, "OK", [⟨"t2", "Mix", some 19724, none, false, "", ""⟩]⟩
  else Except.error "boom"

/-- C3.  Failure isolation in the tasks handler: (1) a rejected promise
or a non-ok status on one project's task fetch is locally equivalent to
that project's fetch returning an empty task list — the handler's result
is unchanged when the failing fetch is replaced by `ok` with no data, so
only that project's tasks are omitted; (2) when the primary project
fetch succeeds the request returns the 200 envelope whatever the
per-project fetches do; (3) a non-ok status on the primary project fetch
makes the whole request answer the 500 envelope with `success:false`. -/
theorem c3_error_isolation (tok ws : Option String) (pf : Fetch (List Project))
    (tf : String → Fetch (List Task)) (today : Nat) (g e : String) :
    ((tf g = Except.error e ∨ ∃ r, tf g = Except.ok r ∧ r.ok = false) →
      tasksHandler "GET" tok ws pf tf today =
        tasksHandler "GET" tok ws pf
          (fun gid => if gid == g then Except.ok ⟨true, 200, "OK", []⟩ else tf gid) today) ∧
    (∀ r, pf = Except.ok r → r.ok = true → truthy tok = true → truthy ws = true →
      ∃ ts, tasksHandler "GET" tok ws pf tf today =
        .ok ts (r.data.filter isReleaseProjectT).length) ∧
    (∀ r, pf = Except.ok r → r.ok = false → truthy tok = true → truthy ws = true →
      tasksHandler "GET" tok ws pf tf today = .err ("Asana API error: " ++ toString r.status)) := by
  refine ⟨fun hfail => ?_, fun r hpf hok h1 h2 => ?_, fun r hpf hok h1 h2 => ?_⟩
  · apply tasksHandler_congr
    intro p
    unfold projectTasks
    by_cases hg : p.gid = g
    · rw [hg]
      simp only [beq_self_eq_true, if_true]
      rcases hfail with hf | ⟨r, hf, hro⟩
      · rw [hf]
        simp
      · rw [hf]
        simp [hro]
    · have hbeq : (p.gid == g) = false := by simp [hg]
      simp only [hbeq, Bool.false_eq_true, if_false]
  · unfold tasksHandler
    rw [if_neg (by decide), if_neg (by decide), if_neg (by simp [h1, h2]), hpf]
    simp only [hok, Bool.not_true, Bool.false_eq_true, if_false]
    exact ⟨_, rfl⟩
  · unfold tasksHandler
    rw [if_neg (by decide), if_neg (by decide), if_neg (by simp [h1, h2]), hpf]
    simp [hok]

/-- C3, witness: two release projects where g2's task fetch rejects —
the result equals the run where g2's fetch returns no tasks, the request
still succeeds with both projects counted, and a failing primary fetch
yields the 500 message. -/
theorem c3_error_isolation_witness :
    (tasksHandler "GET" (some "t") (some "w")
        (Except.ok ⟨true, 200, "OK", [pEpJan, pSingleMar]⟩) tfBoom 0 =
      tasksHandler "GET" (some "t") (some "w")
        (Except.ok ⟨true, 200, "OK", [pEpJan, pSingleMar]⟩)
        (fun gid => if gid == "g2" then Except.ok ⟨true, 200, "OK", []⟩ else tfBoom gid) 0) ∧
    (∃ ts, tasksHandler "GET" (some "t") (some "w")
        (Except.ok ⟨true, 200, "OK", [pEpJan, pSingleMar]⟩) tfBoom 0 = .ok ts 2) ∧
    (tasksHandler "GET" (some "t") (some "w") (Except.ok ⟨false, 429, "Too Many", []⟩) tfBoom 0 =
      .err "Asana API error: 429") := by
  refine ⟨(c3_error_isolation (some "t") (some "w")
      (Except.ok ⟨true, 200, "OK", [pEpJan, pSingleMar]⟩) tfBoom 0 "g2" "boom").1
      (Or.inl rfl), ?_,
    (c3_error_isolation (some "t") (some "w") (Except.ok ⟨false, 429, "Too Many", []⟩)
      tfBoom 0 "g2" "boom").2.2 ⟨false, 429, "Too Many", []⟩ rfl rfl rfl rfl⟩
  obtain ⟨ts, hts⟩ := (c3_error_isolation (some "t") (some "w")
    (Except.ok ⟨true, 200, "OK", [pEpJan, pSingleMar]⟩) tfBoom 0 "g2" "boom").2.1
    ⟨true, 200, "OK", [pEpJan, pSingleMar]⟩ rfl rfl rfl rfl
  exact ⟨ts, hts.trans (congrArg (TasksResult.ok ts) (by decide))⟩

/-- C10.  Annotation is a pure frame extension: every original field of
the task is present and unchanged (the whole original record is embedded
as `toTask`), and exactly the three project fields are added, taken from
the owning project. -/
theorem c10_annotate_frame (p : Project) (t : Task) :
    (annotate p t).toTask = t ∧
    (annotate p t).gid = t.gid ∧ (annotate p t).name = t.name ∧
    (annotate p t).due_on = t.due_on ∧ (annotate p t).assignee = t.assignee ∧
    (annotate p t).completed = t.completed ∧ (annotate p t).created_at = t.created_at ∧
    (annotate p t).notes = t.notes ∧
    (annotate p t).project_name = p.name ∧ (annotate p t).project_gid = p.gid ∧
    (annotate p t).project_due_date = p.due_date :=
  ⟨rfl, rfl, rfl, rfl, rfl, rfl, rfl, rfl, rfl, rfl, rfl⟩

end ReleaseDashboard
